import Mathlib

/-!
Verification development for the tablet-server query layer:
schema/table-info loading (`tabletserver`), the row-cache pool
(`CachePool`), and the plan builder (`planbuilder`).

Shallow embedding notes: Go nil slices are `Option` when nil-ness is
observable (`PKColumns`), machine integers are `Int`/`Nat` with explicit
wrap-around where it matters, `log.Fatalf` is an `Except.error`, and the
mutation-plus-defer pattern of the query generators is explicit state
passing (input AST in, output AST out).
-/

namespace CM

/-! ### Schema model (package vt/schema)

The `vt/schema` package itself is not part of the analysed sources; its
record layout and helper functions are modelled from the spec (section 3,
Data model): a column has a name and a SQL-type category; an index has a
name, ordered columns with parallel cardinalities and derived
`dataColumns`; a table has ordered columns, indexes with the primary at
position 0, `PKColumns` positions and a cache type. -/

inductive ColCategory
| cat_number
| cat_varbinary
| cat_other
deriving DecidableEq, Repr

inductive CacheKind
| cache_none
| cache_rw
| cache_w
deriving DecidableEq, Repr

structure TableColumn where
  name : String
  category : ColCategory
deriving DecidableEq, Repr

structure Index where
  name : String
  columns : List String
  cardinality : List Nat
  dataColumns : List String
deriving DecidableEq, Repr

/-- Go `schema.Table`.  `pkColumns` is `none` when the Go slice is nil
(`PKColumns` is only assigned by `fetchIndexes` and `SetPK`). -/
structure Table where
  name : String
  columns : List TableColumn
  indexes : List Index
  pkColumns : Option (List Int)
  cacheType : CacheKind
deriving DecidableEq, Repr

/-- Go `tabletserver.TableInfo`: a schema table plus the row-cache handle
(`Cache *RowCache`, modelled as an `Option`). -/
structure TableInfo where
  table : Table
  cache : Option Unit
deriving DecidableEq, Repr

/-- Modelled from the spec: `schema.NewIndex` creates an index with the
given name and no columns. -/
def newIndex (name : String) : Index :=
  { name := name, columns := [], cardinality := [], dataColumns := [] }

/-- Modelled from the spec: `schema.Index.AddColumn` appends a column name
and its cardinality (the two lists are parallel). -/
def Index.addColumn (idx : Index) (name : String) (card : Nat) : Index :=
  { idx with columns := idx.columns ++ [name], cardinality := idx.cardinality ++ [card] }

/-- Position of the first occurrence of `name` in a string list starting
at offset `i`, or `-1` when absent (Go convention). -/
def strIdxAux (name : String) : List String → Nat → Int
  | [], _ => -1
  | c :: cs, i => if c == name then (i : Int) else strIdxAux name cs (i + 1)

/-- Modelled from the spec: `schema.Index.FindDataColumn` returns the
position of a name in `dataColumns`, or `-1`. -/
def Index.findDataColumn (idx : Index) (name : String) : Int :=
  strIdxAux name idx.dataColumns 0

def colIdxAux (name : String) : List TableColumn → Nat → Int
  | [], _ => -1
  | c :: cs, i => if c.name == name then (i : Int) else colIdxAux name cs (i + 1)

/-- Modelled from the spec: `schema.Table.FindColumn` returns the position
of the named column in the table's column list, or `-1`. -/
def Table.findColumn (t : Table) (name : String) : Int :=
  colIdxAux name t.columns 0

/-- Modelled from the spec: `schema.Table.AddIndex` appends a fresh index;
the Go function returns a pointer to it, so subsequent `AddColumn` calls
act on the last element of `indexes`. -/
def Table.addIndex (t : Table) (name : String) : Table :=
  { t with indexes := t.indexes ++ [newIndex name] }

/-- Modelled from the spec: `schema.NewTable` — fresh table, nil
`PKColumns`, cache type none. -/
def NewTable (name : String) : Table :=
  { name := name, columns := [], indexes := [], pkColumns := none, cacheType := CacheKind.cache_none }

/-! ### fetchIndexes (table_info.go) -/

/-- One row of `show index from t`: row[2] is the index name, row[4] the
column name, row[6] the cardinality (already parsed; `strconv` failures
default to 0 with a log warning). -/
structure IndexRow where
  indexName : String
  columnName : String
  cardinality : Nat
deriving DecidableEq, Repr

/-- Apply `f` to the last element of a list (the index `currentIndex`
points at).  The Go code dereferences a nil pointer when no index has been
added yet; that panicking execution never completes a schema load, so the
model leaves the empty list unchanged. -/
def modifyLast (f : Index → Index) : List Index → List Index
  | [] => []
  | [i] => [f i]
  | i :: is => i :: modifyLast f is

/-- One iteration of the row loop in `fetchIndexes`: when the index name
changes, `AddIndex` appends a fresh index and `currentName` is updated;
either way the row's column is added to the current (= last) index. -/
def fetchIndexStep (st : Table × String) (row : IndexRow) : Table × String :=
  let st2 := if st.2 ≠ row.indexName then (st.1.addIndex row.indexName, row.indexName) else st
  ({ st2.1 with indexes := modifyLast (fun i => i.addColumn row.columnName row.cardinality) st2.1.indexes },
    st2.2)

/-- The grouping loop of `fetchIndexes`, starting from `currentName = ""`. -/
def fetchIndexesScan (t : Table) (rows : List IndexRow) : Table :=
  (rows.foldl fetchIndexStep (t, "")).1

/-- Body of the inner pk-column loop for secondary indexes: append the pk
column unless `FindDataColumn` already finds it. -/
def appendPkColumnStep (idx : Index) (c : String) : Index :=
  if idx.findDataColumn c ≠ -1 then idx
  else { idx with dataColumns := idx.dataColumns ++ [c] }

/-- The secondary-index body of `fetchIndexes`: first every own column is
appended to `dataColumns`, then every pk column not already present. -/
def secondaryCover (pkCols : List String) (idx : Index) : Index :=
  let idx2 := { idx with dataColumns := idx.dataColumns ++ idx.columns }
  pkCols.foldl appendPkColumnStep idx2

/-- The tail of `fetchIndexes` after the row loop: nothing happens unless
the first index is named PRIMARY; otherwise `PKColumns` is derived via
`FindColumn`, the primary's `dataColumns` is extended with every table
column, and every later index is covered by `secondaryCover`. -/
def fetchIndexesFinish (t : Table) : Table :=
  match t.indexes with
  | [] => t
  | pk :: rest =>
    if pk.name ≠ "PRIMARY" then t
    else
      let pkColumns := pk.columns.map t.findColumn
      let pk2 := { pk with dataColumns := pk.dataColumns ++ t.columns.map (fun c => c.name) }
      let rest2 := rest.map (secondaryCover pk.columns)
      { t with indexes := pk2 :: rest2, pkColumns := some pkColumns }

/-- `TableInfo.fetchIndexes` (table_info.go): the backend rows are the
input; the `conn.Execute` error path returns the table unchanged to the
caller and is outside this model. -/
def fetchIndexes (t : Table) (rows : List IndexRow) : Table :=
  fetchIndexesFinish (fetchIndexesScan t rows)

/-! ### SetPK (table_info.go) -/

/-- The first loop of `SetPK`: resolve every column name, failing on the
first name `FindColumn` cannot find. -/
def setPKColnums (t : Table) : List String → Except String (List Int)
  | [] => Except.ok []
  | c :: cs =>
    if t.findColumn c = -1 then Except.error ("column " ++ c ++ " not found")
    else
      match setPKColnums t cs with
      | Except.error e => Except.error e
      | Except.ok rest => Except.ok (t.findColumn c :: rest)

/-- `TableInfo.SetPK` (table_info.go): build a synthetic PRIMARY index
whose `dataColumns` are all table columns, place it at position 0
(replacing an existing PRIMARY, otherwise shifting the rest down one), and
record the resolved positions in `pkColumns`. -/
def SetPK (t : Table) (colnames : List String) : Except String Table :=
  match setPKColnums t colnames with
  | Except.error e => Except.error e
  | Except.ok colnums =>
    let pkIndex : Index :=
      { name := "PRIMARY", columns := colnames,
        cardinality := colnames.map (fun _ => 1),
        dataColumns := t.columns.map (fun c => c.name) }
    let indexes :=
      match t.indexes with
      | [] => [pkIndex]
      | first :: rest =>
        if first.name ≠ "PRIMARY" then pkIndex :: first :: rest
        else pkIndex :: rest
    Except.ok { t with indexes := indexes, pkColumns := some colnums }

/-! ### initRowCache (table_info.go) -/

def strHasPre : List Char → List Char → Bool
  | [], _ => true
  | _ :: _, [] => false
  | a :: as, b :: bs => a == b && strHasPre as bs

def strContainsAux (pat : List Char) : List Char → Bool
  | [] => strHasPre pat []
  | b :: rest => strHasPre pat (b :: rest) || strContainsAux pat rest

/-- Go `strings.Contains s pat`. -/
def strContains (s pat : String) : Bool :=
  strContainsAux pat.toList s.toList

/-- Column at an `Int` position (Go slice indexing; negative or
out-of-range positions panic in Go and yield `none` here). -/
def colAt (t : Table) (i : Int) : Option TableColumn :=
  if i < 0 then none else t.columns.get? i.toNat

/-- The loop test of `initRowCache`: `ti.Columns[col].Category ==
schema.CAT_OTHER`. -/
def pkColIsOther (t : Table) (i : Int) : Bool :=
  match colAt t i with
  | some c => c.category == ColCategory.cat_other
  | none => false

/-- `TableInfo.initRowCache` (table_info.go).  `poolClosed` is the result
of `cachePool.IsClosed()`; attaching the cache is `NewRowCache`. -/
def initRowCache (ti : TableInfo) (tableType : String) (comment : String) (poolClosed : Bool) : TableInfo :=
  if poolClosed then ti
  else if strContains comment "vtocc_nocache" then ti
  else if tableType == "VIEW" then ti
  else
    match ti.table.pkColumns with
    | none => ti
    | some pks =>
      if pks.any (fun c => pkColIsOther ti.table c) then ti
      else { table := { ti.table with cacheType := CacheKind.cache_rw }, cache := some () }

/-- Follows the spec's words (section 4.2, Cacheability decision), to be
compared with `initRowCache`: eligible iff the pool is open, the comment
lacks the `vtocc_nocache` marker, the table is not a view, `PKColumns` is
non-empty, and every PK column's category is not `other`. -/
def cacheEligibleSpec (ti : TableInfo) (tableType : String) (comment : String) (poolClosed : Bool) : Prop :=
  poolClosed = false ∧
  strContains comment "vtocc_nocache" = false ∧
  tableType ≠ "VIEW" ∧
  ∃ l, ti.table.pkColumns = some l ∧ l ≠ [] ∧
    ∀ i ∈ l, ∃ c, colAt ti.table i = some c ∧ c.category ≠ ColCategory.cat_other

/-! ### Cache pool (cache_pool.go) -/

/-- The fields of `CachePool` fixed by `NewCachePool` (the live pool
handle, child process and stats are runtime state outside this model).
Field defaults are the Go zero values. -/
structure CachePool where
  capacity : Int := 0
  port : String := ""
  deleteExpiry : Nat := 0
deriving DecidableEq, Repr

/-- Go conversion `uint64(x)` of a signed 64-bit value. -/
def goUint64 (x : Int) : Nat :=
  (x % (2 ^ 64 : Int)).toNat

/-- `NewCachePool` (cache_pool.go).  `queryTimeoutNs` is the
`time.Duration` in nanoseconds; `log.Fatalf` is modelled as an error.
An empty binary returns the zero-valued pool (caching disabled). -/
def newCachePool (binary socket : String) (tcpPort connections queryTimeoutNs : Int) : Except String CachePool :=
  if binary == "" then Except.ok {} else
  let port0 := "11211"
  let port1 := if socket ≠ "" then socket else port0
  let port2 := if tcpPort > 0 then ":" ++ toString tcpPort else port1
  if 0 < connections ∧ connections ≤ 50 then
    Except.error ("insufficient capacity: " ++ toString connections)
  else
    let capacity : Int := if 0 < connections then connections - 50 else 1024 - 50
    let seconds : Nat := goUint64 (Int.tdiv queryTimeoutNs 1000000000)
    let expiry : Nat := if seconds ≠ 0 then (2 * seconds + 15) % (2 ^ 64) else 0
    Except.ok { capacity := capacity, port := port2, deleteExpiry := expiry }

/-! ### SQL AST (package sqlparser)

The `sqlparser` package is not part of the analysed sources.  The AST
below is modelled from the spec (sections 3 and 4.4): the subset of node
kinds the plan-builder rewriters act on — selects and unions, FROM table
expressions with aliases, index hints and joins, WHERE conjunctions of
comparisons, LIMIT nodes, and value expressions including bind variables
(`ValArg`).  Comments, DISTINCT, GROUP BY/HAVING/ORDER BY and lock
suffixes are orthogonal to every claim and omitted. -/

inductive ValExpr
| strVal (s : String)
| numVal (s : String)
| valArg (name : String)
| colName (name : String)
deriving DecidableEq, Repr

inductive BoolExpr
| comparison (left : ValExpr) (op : String) (right : ValExpr)
| andExpr (l r : BoolExpr)
deriving DecidableEq, Repr

structure IndexHints where
  htype : String
  indexes : List String
deriving DecidableEq, Repr

structure LimitNode where
  offset : Option ValExpr
  rowcount : ValExpr
deriving DecidableEq, Repr

mutual
inductive SimpleTableExpr
| tableName (n : String)
| subquery (s : SelectStmt)
inductive TableExpr
| aliased (expr : SimpleTableExpr) (asName : String) (hints : Option IndexHints)
| join (left : TableExpr) (joinType : String) (right : TableExpr) (onExpr : Option BoolExpr)
inductive SelectStmt
| select (exprs : List ValExpr) (frm : List TableExpr) (whr : Option BoolExpr) (limit : Option LimitNode)
| union (unionType : String) (left : SelectStmt) (right : SelectStmt)
end

def AST_LEFT_JOIN : String := "left join"
def AST_RIGHT_JOIN : String := "right join"
def AST_USE : String := "use "
def AST_FOR_UPDATE : String := " for update"

/-- The sentinel limit `&sqlparser.Limit{Rowcount: sqlparser.ValArg(":#maxLimit")}`. -/
def execLimit : LimitNode := { offset := none, rowcount := ValExpr.valArg ":#maxLimit" }

/-! Formatting.  A tracked buffer is (text, number of bind locations):
formatting a `ValArg` writes its text and records a bind location
(`WriteArg`), which is what `HasBindVars` inspects. -/

def commaJoin : List String → String
  | [] => ""
  | [c] => c
  | c :: cs => c ++ ", " ++ commaJoin cs

def fmtValExpr : ValExpr → String × Nat
  | ValExpr.strVal s => ("'" ++ s ++ "'", 0)
  | ValExpr.numVal s => (s, 0)
  | ValExpr.valArg n => (n, 1)
  | ValExpr.colName n => (n, 0)

def fmtBoolExpr : BoolExpr → String × Nat
  | BoolExpr.comparison l op r =>
    ((fmtValExpr l).1 ++ " " ++ op ++ " " ++ (fmtValExpr r).1, (fmtValExpr l).2 + (fmtValExpr r).2)
  | BoolExpr.andExpr a b =>
    ((fmtBoolExpr a).1 ++ " and " ++ (fmtBoolExpr b).1, (fmtBoolExpr a).2 + (fmtBoolExpr b).2)

def fmtWhere : Option BoolExpr → String × Nat
  | none => ("", 0)
  | some e => (" where " ++ (fmtBoolExpr e).1, (fmtBoolExpr e).2)

def fmtLimit : Option LimitNode → String × Nat
  | none => ("", 0)
  | some l =>
    match l.offset with
    | none => (" limit " ++ (fmtValExpr l.rowcount).1, (fmtValExpr l.rowcount).2)
    | some o =>
      (" limit " ++ (fmtValExpr o).1 ++ ", " ++ (fmtValExpr l.rowcount).1,
        (fmtValExpr o).2 + (fmtValExpr l.rowcount).2)

def fmtIndexHints : Option IndexHints → String × Nat
  | none => ("", 0)
  | some h => (" " ++ h.htype ++ "index (" ++ commaJoin h.indexes ++ ")", 0)

def fmtSelectExprs : List ValExpr → String × Nat
  | [] => ("", 0)
  | [e] => fmtValExpr e
  | e :: es => ((fmtValExpr e).1 ++ ", " ++ (fmtSelectExprs es).1, (fmtValExpr e).2 + (fmtSelectExprs es).2)

/-! Standard formatting (the nodes' own `Format` methods). -/

mutual
def fmtSimpleTableExpr : SimpleTableExpr → String × Nat
  | SimpleTableExpr.tableName n => (n, 0)
  | SimpleTableExpr.subquery s => ("(" ++ (fmtSelectStmt s).1 ++ ")", (fmtSelectStmt s).2)
def fmtTableExpr : TableExpr → String × Nat
  | TableExpr.aliased e a h =>
    ((fmtSimpleTableExpr e).1 ++ (if a == "" then "" else " as " ++ a) ++ (fmtIndexHints h).1,
      (fmtSimpleTableExpr e).2)
  | TableExpr.join l j r o =>
    ((fmtTableExpr l).1 ++ " " ++ j ++ " " ++ (fmtTableExpr r).1 ++
        (match o with | none => "" | some e => " on " ++ (fmtBoolExpr e).1),
      (fmtTableExpr l).2 + (fmtTableExpr r).2 +
        (match o with | none => 0 | some e => (fmtBoolExpr e).2))
def fmtTableExprs : List TableExpr → String × Nat
  | [] => ("", 0)
  | [t] => fmtTableExpr t
  | t :: ts => ((fmtTableExpr t).1 ++ ", " ++ (fmtTableExprs ts).1, (fmtTableExpr t).2 + (fmtTableExprs ts).2)
def fmtSelectStmt : SelectStmt → String × Nat
  | SelectStmt.select es f w lim =>
    ("select " ++ (fmtSelectExprs es).1 ++ " from " ++ (fmtTableExprs f).1 ++ (fmtWhere w).1 ++ (fmtLimit lim).1,
      (fmtSelectExprs es).2 + (fmtTableExprs f).2 + (fmtWhere w).2 + (fmtLimit lim).2)
  | SelectStmt.union ut l r =>
    ((fmtSelectStmt l).1 ++ " " ++ ut ++ " " ++ (fmtSelectStmt r).1,
      (fmtSelectStmt l).2 + (fmtSelectStmt r).2)
end

/-! Formatting through `FormatImpossible` (plan_query.go): selects print
`select <exprs> from <from> where 1 != 1` (dropping WHERE and LIMIT),
left/right joins print `on 1 != 1` and any other node falls through to
its standard format, with children again formatted by `FormatImpossible`.
Value expressions contain no select children in this model, so their
formatting coincides with the standard one. -/

mutual
def fmtImpSimpleTableExpr : SimpleTableExpr → String × Nat
  | SimpleTableExpr.tableName n => (n, 0)
  | SimpleTableExpr.subquery s => ("(" ++ (fmtImpSelectStmt s).1 ++ ")", (fmtImpSelectStmt s).2)
def fmtImpTableExpr : TableExpr → String × Nat
  | TableExpr.aliased e a h =>
    ((fmtImpSimpleTableExpr e).1 ++ (if a == "" then "" else " as " ++ a) ++ (fmtIndexHints h).1,
      (fmtImpSimpleTableExpr e).2)
  | TableExpr.join l j r _ =>
    if j == AST_LEFT_JOIN || j == AST_RIGHT_JOIN then
      ((fmtImpTableExpr l).1 ++ " " ++ j ++ " " ++ (fmtImpTableExpr r).1 ++ " on 1 != 1",
        (fmtImpTableExpr l).2 + (fmtImpTableExpr r).2)
    else
      ((fmtImpTableExpr l).1 ++ " " ++ j ++ " " ++ (fmtImpTableExpr r).1,
        (fmtImpTableExpr l).2 + (fmtImpTableExpr r).2)
def fmtImpTableExprs : List TableExpr → String × Nat
  | [] => ("", 0)
  | [t] => fmtImpTableExpr t
  | t :: ts =>
    ((fmtImpTableExpr t).1 ++ ", " ++ (fmtImpTableExprs ts).1,
      (fmtImpTableExpr t).2 + (fmtImpTableExprs ts).2)
def fmtImpSelectStmt : SelectStmt → String × Nat
  | SelectStmt.select es f _ _ =>
    ("select " ++ (fmtSelectExprs es).1 ++ " from " ++ (fmtImpTableExprs f).1 ++ " where 1 != 1",
      (fmtSelectExprs es).2 + (fmtImpTableExprs f).2)
  | SelectStmt.union ut l r =>
    ((fmtImpSelectStmt l).1 ++ " " ++ ut ++ " " ++ (fmtImpSelectStmt r).1,
      (fmtImpSelectStmt l).2 + (fmtImpSelectStmt r).2)
end

/-! ### Query rewriters (plan_query.go) -/

/-- `GenerateFullQuery`: the canonical reprint. -/
def generateFullQuery (s : SelectStmt) : String :=
  (fmtSelectStmt s).1

/-- `GenerateFieldQuery`: format through `FormatImpossible`; if the buffer
has bind locations, return nil. -/
def generateFieldQuery (s : SelectStmt) : Option String :=
  if (fmtImpSelectStmt s).2 ≠ 0 then none else some (fmtImpSelectStmt s).1

/-- `GenerateSelectLimitQuery` with the AST mutation made explicit: for a
`Select` with nil Limit the sentinel `execLimit` is installed, the
statement is printed, and the deferred `sel.Limit = nil` restores the
node; the second component is the AST as left behind on return. -/
def generateSelectLimitQueryST : SelectStmt → String × SelectStmt
  | SelectStmt.select es f w none =>
    let sel2 := SelectStmt.select es f w (some execLimit)
    ((fmtSelectStmt sel2).1, SelectStmt.select es f w none)
  | s => ((fmtSelectStmt s).1, s)

def generateSelectLimitQuery (s : SelectStmt) : String :=
  (generateSelectLimitQueryST s).1

/-- `GenerateSubquery`: a nil limit is replaced by `execLimit`; the Go
column loop panics on an empty column list (`commaJoin` prints nothing). -/
def generateSubquery (columns : List String) (table : TableExpr) (whr : Option BoolExpr)
    (limit : Option LimitNode) (forUpdate : Bool) : String :=
  let lim := match limit with | none => some execLimit | some l => some l
  "select " ++ commaJoin columns ++ " from " ++ (fmtTableExpr table).1 ++ (fmtWhere whr).1 ++
    (fmtLimit lim).1 ++ (if forUpdate then AST_FOR_UPDATE else "")

/-- `GenerateSelectSubquery` with the AST mutation made explicit: a
`use index` hint is installed on `sel.From[0]` (which must be an
`AliasedTableExpr`; a join panics in Go, hence `none`), the subquery is
generated from `tableInfo.Indexes[0]` (panics when absent), and the
deferred `table_expr.Hints = savedHint` restores the node.  The second
component of the result is the AST as left behind on return. -/
def generateSelectSubqueryST (es : List ValExpr) (f : List TableExpr) (w : Option BoolExpr)
    (lim : Option LimitNode) (tableInfo : Table) (index : String) : Option (String × SelectStmt) :=
  match tableInfo.indexes with
  | [] => none
  | i0 :: _ =>
    match f with
    | TableExpr.aliased e a savedHint :: rest =>
      let hint : IndexHints := { htype := AST_USE, indexes := [index] }
      let texpr := TableExpr.aliased e a (some hint)
      let out := generateSubquery i0.columns texpr w lim false
      some (out, SelectStmt.select es (TableExpr.aliased e a savedHint :: rest) w lim)
    | _ => none

/-! ### Plan types and analyzeSQL (plan.go / exec_plan) -/

/-- Modelled from the spec (section 3): the plan taxonomy. -/
inductive PlanType
| PLAN_PASS_SELECT
| PLAN_PK_EQUAL
| PLAN_PK_IN
| PLAN_SELECT_SUBQUERY
| PLAN_PASS_DML
| PLAN_DML_PK
| PLAN_DML_SUBQUERY
| PLAN_INSERT_PK
| PLAN_INSERT_SUBQUERY
| PLAN_SET
| PLAN_DDL
| PLAN_OTHER
deriving DecidableEq, Repr

/-- Modelled from the spec (section 3): the reason taxonomy. -/
inductive ReasonType
| REASON_DEFAULT
| REASON_SELECT
| REASON_TABLE
| REASON_TABLE_NOINDEX
| REASON_PKCHANGE
| REASON_HAS_HINTS
| REASON_UPSERT
deriving DecidableEq, Repr

/-- The `ExecPlan` fields set by `analyzeSQL` and its leaf branches; field
defaults are the Go zero values of the struct literal. -/
structure ExecPlan where
  planId : PlanType
  reason : ReasonType := ReasonType.REASON_DEFAULT
  tableName : String := ""
  fieldQuery : Option String := none
  fullQuery : Option String := none
  outerQuery : Option String := none
  subquery : Option String := none
  indexUsed : String := ""
deriving Repr

/-- The dynamic type of a parsed statement, as dispatched by the switch in
`analyzeSQL`.  `unrecognized` stands for any `sqlparser.Statement`
implementation outside the listed cases. -/
inductive Statement
| selS (s : SelectStmt)
| insertS
| updateS
| deleteS
| setS
| ddlS
| otherS
| unrecognized

/-- `analyzeSQL` (exec_plan).  The per-kind analyses live in source files
outside the analysed set, so they are parameters: `hSelect`, `hInsert`,
`hUpdate`, `hDelete` may fail, `analyzeSet`/`analyzeDDL` cannot.  The
`Union` branch and the fall-through error are the code in scope. -/
def analyzeSQL (hSelect : SelectStmt → Except String ExecPlan)
    (hInsert hUpdate hDelete : Except String ExecPlan)
    (hSet hDDL : ExecPlan) : Statement → Except String ExecPlan
  | Statement.selS (SelectStmt.union ut l r) =>
    Except.ok { planId := PlanType.PLAN_PASS_SELECT,
                fieldQuery := generateFieldQuery (SelectStmt.union ut l r),
                fullQuery := some (generateFullQuery (SelectStmt.union ut l r)),
                reason := ReasonType.REASON_SELECT }
  | Statement.selS s => hSelect s
  | Statement.insertS => hInsert
  | Statement.updateS => hUpdate
  | Statement.deleteS => hDelete
  | Statement.setS => Except.ok hSet
  | Statement.ddlS => Except.ok hDDL
  | Statement.otherS => Except.ok { planId := PlanType.PLAN_OTHER }
  | Statement.unrecognized => Except.error "invalid SQL"

/-! ### Helper lemmas -/

theorem modifyLast_pres (P : Index → Prop) (f : Index → Index)
    (hf : ∀ i, P i → P (f i)) :
    ∀ l : List Index, (∀ i ∈ l, P i) → ∀ i ∈ modifyLast f l, P i := by
  intro l
  induction l with
  | nil => intro _ i hi; simp [modifyLast] at hi
  | cons a l ih =>
    cases l with
    | nil =>
      intro h i hi
      simp only [modifyLast, List.mem_singleton] at hi
      subst hi
      exact hf a (h a (by simp))
    | cons b l2 =>
      intro h i hi
      simp only [modifyLast, List.mem_cons] at hi
      rcases hi with rfl | hi
      · exact h i (by simp)
      · exact ih (fun j hj => h j (List.mem_cons_of_mem _ hj)) i hi

theorem fetchIndexStep_columns (st : Table × String) (r : IndexRow) :
    ((fetchIndexStep st r).1).columns = st.1.columns := by
  unfold fetchIndexStep Table.addIndex
  split <;> rfl

theorem fetchIndexStep_data (st : Table × String) (r : IndexRow)
    (h : ∀ i ∈ st.1.indexes, i.dataColumns = []) :
    ∀ i ∈ ((fetchIndexStep st r).1).indexes, i.dataColumns = [] := by
  unfold fetchIndexStep
  have hf : ∀ i : Index, i.dataColumns = [] → (i.addColumn r.columnName r.cardinality).dataColumns = [] :=
    fun i hi => hi
  split
  · intro i hi
    refine modifyLast_pres _ _ hf _ ?_ i hi
    intro j hj
    simp only [Table.addIndex, List.mem_append, List.mem_singleton] at hj
    rcases hj with hj | rfl
    · exact h j hj
    · rfl
  · exact fun i hi => modifyLast_pres _ _ hf _ h i hi

theorem scan_columns (rows : List IndexRow) (st : Table × String) :
    ((rows.foldl fetchIndexStep st).1).columns = st.1.columns := by
  induction rows generalizing st with
  | nil => rfl
  | cons r rs ih =>
    rw [List.foldl_cons, ih, fetchIndexStep_columns]

theorem scan_data (rows : List IndexRow) (st : Table × String)
    (h : ∀ i ∈ st.1.indexes, i.dataColumns = []) :
    ∀ i ∈ ((rows.foldl fetchIndexStep st).1).indexes, i.dataColumns = [] := by
  induction rows generalizing st with
  | nil => exact h
  | cons r rs ih =>
    rw [List.foldl_cons]
    exact ih _ (fetchIndexStep_data st r h)

theorem strIdxAux_ne_neg_one (name : String) (l : List String) (i : Nat) :
    strIdxAux name l i ≠ -1 ↔ name ∈ l := by
  induction l generalizing i with
  | nil => simp [strIdxAux]
  | cons c cs ih =>
    simp only [strIdxAux]
    by_cases h : c = name
    · subst h
      simp only [beq_self_eq_true, if_true, List.mem_cons, true_or, iff_true]
      omega
    · have hb : (c == name) = false := beq_eq_false_iff_ne.mpr h
      rw [hb]
      simp only [Bool.false_eq_true, if_false, ih, List.mem_cons]
      constructor
      · exact Or.inr
      · rintro (rfl | hm)
        · exact absurd rfl h
        · exact hm

theorem findDataColumn_mem (idx : Index) (c : String) :
    idx.findDataColumn c ≠ -1 ↔ c ∈ idx.dataColumns :=
  strIdxAux_ne_neg_one c idx.dataColumns 0

theorem appendPkColumnStep_columns (idx : Index) (c : String) :
    (appendPkColumnStep idx c).columns = idx.columns := by
  unfold appendPkColumnStep
  split <;> rfl

theorem appendPk_columns (pkCols : List String) (idx : Index) :
    (pkCols.foldl appendPkColumnStep idx).columns = idx.columns := by
  induction pkCols generalizing idx with
  | nil => rfl
  | cons c cs ih => rw [List.foldl_cons, ih, appendPkColumnStep_columns]

theorem appendPk_mono (pkCols : List String) (idx : Index) (a : String)
    (h : a ∈ idx.dataColumns) :
    a ∈ (pkCols.foldl appendPkColumnStep idx).dataColumns := by
  induction pkCols generalizing idx with
  | nil => exact h
  | cons c cs ih =>
    rw [List.foldl_cons]
    refine ih _ ?_
    unfold appendPkColumnStep
    split
    · exact h
    · exact List.mem_append_left _ h

theorem appendPk_covers (pkCols : List String) (idx : Index) :
    ∀ c ∈ pkCols, c ∈ (pkCols.foldl appendPkColumnStep idx).dataColumns := by
  induction pkCols generalizing idx with
  | nil => simp
  | cons c cs ih =>
    intro a ha
    rw [List.foldl_cons]
    rcases List.mem_cons.mp ha with rfl | ha
    · refine appendPk_mono cs _ a ?_
      unfold appendPkColumnStep
      split
      · next hfd => exact (findDataColumn_mem idx a).mp hfd
      · exact List.mem_append_right _ (by simp)
    · exact ih _ a ha

theorem secondaryCover_columns (pkCols : List String) (idx : Index) :
    (secondaryCover pkCols idx).columns = idx.columns := by
  unfold secondaryCover
  rw [appendPk_columns]

theorem findColumn_congr (t1 t2 : Table) (h : t1.columns = t2.columns) :
    t1.findColumn = t2.findColumn := by
  funext n
  unfold Table.findColumn
  rw [h]

theorem colIdxAux_found (name : String) (l : List TableColumn) (i : Nat)
    (h : ∃ col ∈ l, col.name = name) :
    ∃ k : Nat, colIdxAux name l i = ((i + k : Nat) : Int) ∧
      (l.get? k).map (fun c => c.name) = some name := by
  induction l generalizing i with
  | nil => simp at h
  | cons c cs ih =>
    by_cases hc : c.name = name
    · refine ⟨0, ?_, ?_⟩
      · simp [colIdxAux, hc]
      · simpa using hc
    · have hb : (c.name == name) = false := beq_eq_false_iff_ne.mpr hc
      obtain ⟨col, hmem, hcol⟩ := h
      rcases List.mem_cons.mp hmem with rfl | hmem
      · exact absurd hcol hc
      · obtain ⟨k, hk1, hk2⟩ := ih (i + 1) ⟨col, hmem, hcol⟩
        refine ⟨k + 1, ?_, ?_⟩
        · simp only [colIdxAux, hb, Bool.false_eq_true, if_false]
          rw [hk1]
          congr 1
          omega
        · simpa using hk2

theorem fetchIndexesFinish_nil (t : Table) (h : t.indexes = []) : fetchIndexesFinish t = t := by
  unfold fetchIndexesFinish
  rw [h]

theorem fetchIndexesFinish_nonprimary (t : Table) (p : Index) (r : List Index)
    (hsi : t.indexes = p :: r) (hpn : p.name ≠ "PRIMARY") : fetchIndexesFinish t = t := by
  unfold fetchIndexesFinish
  rw [hsi]
  simp [hpn]

theorem fetchIndexesFinish_primary (t : Table) (p : Index) (r : List Index)
    (hsi : t.indexes = p :: r) (hpn : p.name = "PRIMARY") :
    fetchIndexesFinish t =
      { t with
        indexes := { p with dataColumns := p.dataColumns ++ t.columns.map (fun c => c.name) } ::
          r.map (secondaryCover p.columns),
        pkColumns := some (p.columns.map t.findColumn) } := by
  unfold fetchIndexesFinish
  rw [hsi]
  simp [hpn]

/-! ### Claim theorems -/

/-- C2 (amended): for every table after schema load (`fetchIndexes` on a
table with no indexes yet) whose first index is named PRIMARY, every
secondary index's `dataColumns` contains all of its own columns and all
PK (primary index) columns.  Without a leading PRIMARY the code returns
early and every index's `dataColumns` stays empty — see the
counterexample to the unconditional claim. -/
theorem fetchIndexes_secondary_covering (t0 : Table) (rows : List IndexRow)
    (h0 : t0.indexes = [])
    (pk : Index) (rest : List Index)
    (hidx : (fetchIndexes t0 rows).indexes = pk :: rest)
    (hpk : pk.name = "PRIMARY") :
    ∀ idx ∈ rest, (∀ c ∈ idx.columns, c ∈ idx.dataColumns) ∧
      (∀ c ∈ pk.columns, c ∈ idx.dataColumns) := by
  have hdata : ∀ i ∈ (fetchIndexesScan t0 rows).indexes, i.dataColumns = [] := by
    refine scan_data rows (t0, "") ?_
    intro i hi
    rw [h0] at hi
    simp at hi
  unfold fetchIndexes at hidx
  rcases hsi : (fetchIndexesScan t0 rows).indexes with _ | ⟨p, r⟩
  · rw [fetchIndexesFinish_nil _ hsi, hsi] at hidx
    simp at hidx
  · by_cases hpn : p.name = "PRIMARY"
    · rw [fetchIndexesFinish_primary _ p r hsi hpn] at hidx
      simp only at hidx
      obtain ⟨hpk2, hrest⟩ := (List.cons.injEq _ _ _ _).mp hidx
      intro idx hmem
      rw [← hrest] at hmem
      obtain ⟨j, hj, rfl⟩ := List.mem_map.mp hmem
      have hjd : j.dataColumns = [] := hdata j (by rw [hsi]; exact List.mem_cons_of_mem _ hj)
      have hpkcols : pk.columns = p.columns := by rw [← hpk2]
      constructor
      · intro c hc
        rw [secondaryCover_columns] at hc
        unfold secondaryCover
        refine appendPk_mono _ _ _ ?_
        rw [hjd]
        simpa using hc
      · intro c hc
        rw [hpkcols] at hc
        unfold secondaryCover
        exact appendPk_covers _ _ c hc
    · rw [fetchIndexesFinish_nonprimary _ p r hsi hpn, hsi] at hidx
      have : p = pk := ((List.cons.injEq _ _ _ _).mp hidx).1
      exact absurd (this ▸ hpk) hpn

/-- C2 witness: a concrete table with columns a, b and index rows building
a PRIMARY(a) and a secondary idx(b); the secondary's dataColumns end up
as [b, a], covering both its own column and the PK column. -/
theorem fetchIndexes_secondary_covering_witness :
    (fetchIndexes
        { name := "t",
          columns := [{ name := "a", category := ColCategory.cat_number },
                      { name := "b", category := ColCategory.cat_varbinary }],
          indexes := [], pkColumns := none, cacheType := CacheKind.cache_none }
        [{ indexName := "PRIMARY", columnName := "a", cardinality := 10 },
         { indexName := "idx", columnName := "b", cardinality := 5 }]).indexes =
      { name := "PRIMARY", columns := ["a"], cardinality := [10], dataColumns := ["a", "b"] } ::
        [{ name := "idx", columns := ["b"], cardinality := [5], dataColumns := ["b", "a"] }] ∧
    ∀ idx ∈ [({ name := "idx", columns := ["b"], cardinality := [5], dataColumns := ["b", "a"] } : Index)],
      (∀ c ∈ idx.columns, c ∈ idx.dataColumns) ∧
      (∀ c ∈ ({ name := "PRIMARY", columns := ["a"], cardinality := [10], dataColumns := ["a", "b"] } : Index).columns,
        c ∈ idx.dataColumns) :=
  ⟨rfl,
    fetchIndexes_secondary_covering
      { name := "t",
        columns := [{ name := "a", category := ColCategory.cat_number },
                    { name := "b", category := ColCategory.cat_varbinary }],
        indexes := [], pkColumns := none, cacheType := CacheKind.cache_none }
      [{ indexName := "PRIMARY", columnName := "a", cardinality := 10 },
       { indexName := "idx", columnName := "b", cardinality := 5 }]
      rfl
      { name := "PRIMARY", columns := ["a"], cardinality := [10], dataColumns := ["a", "b"] }
      [{ name := "idx", columns := ["b"], cardinality := [5], dataColumns := ["b", "a"] }]
      rfl rfl⟩

/-- C2 counterexample: the unconditional claim fails on a table with no
PRIMARY index.  After loading index rows ix1(a), idx(b) on a PK-less
table, `fetchIndexes` returns early (first index not named PRIMARY), so
the secondary index idx keeps `dataColumns = []`, which does not contain
its own column b. -/
theorem fetchIndexes_no_primary_cex :
    (fetchIndexes
        { name := "t",
          columns := [{ name := "a", category := ColCategory.cat_number },
                      { name := "b", category := ColCategory.cat_varbinary }],
          indexes := [], pkColumns := none, cacheType := CacheKind.cache_none }
        [{ indexName := "ix1", columnName := "a", cardinality := 1 },
         { indexName := "idx", columnName := "b", cardinality := 5 }]).indexes =
      [{ name := "ix1", columns := ["a"], cardinality := [1], dataColumns := [] },
       { name := "idx", columns := ["b"], cardinality := [5], dataColumns := [] }] ∧
    (fetchIndexes
        { name := "t",
          columns := [{ name := "a", category := ColCategory.cat_number },
                      { name := "b", category := ColCategory.cat_varbinary }],
          indexes := [], pkColumns := none, cacheType := CacheKind.cache_none }
        [{ indexName := "ix1", columnName := "a", cardinality := 1 },
         { indexName := "idx", columnName := "b", cardinality := 5 }]).pkColumns = none ∧
    "b" ∈ ({ name := "idx", columns := ["b"], cardinality := [5], dataColumns := [] } : Index).columns ∧
    "b" ∉ ({ name := "idx", columns := ["b"], cardinality := [5], dataColumns := [] } : Index).dataColumns :=
  ⟨rfl, rfl, by decide, by decide⟩

/-- C4: for every table after schema load whose first index is named
PRIMARY, (a) that index's `dataColumns` contains the name of every table
column, and (b) `pkColumns` holds the `FindColumn` positions of the
primary index's columns; when a primary column actually occurs in the
column list, that position is a valid index whose column bears the name. -/
theorem fetchIndexes_primary_covering (t0 : Table) (rows : List IndexRow)
    (pk : Index) (rest : List Index)
    (hidx : (fetchIndexes t0 rows).indexes = pk :: rest)
    (hpk : pk.name = "PRIMARY")
    (hfound : ∀ c ∈ pk.columns, ∃ col ∈ (fetchIndexes t0 rows).columns, col.name = c) :
    (∀ col ∈ (fetchIndexes t0 rows).columns, col.name ∈ pk.dataColumns) ∧
    (fetchIndexes t0 rows).pkColumns = some (pk.columns.map (fetchIndexes t0 rows).findColumn) ∧
    (∀ c ∈ pk.columns, ∃ k : Nat, (fetchIndexes t0 rows).findColumn c = (k : Int) ∧
      ((fetchIndexes t0 rows).columns.get? k).map (fun col => col.name) = some c) := by
  unfold fetchIndexes at hidx hfound ⊢
  rcases hsi : (fetchIndexesScan t0 rows).indexes with _ | ⟨p, r⟩
  · rw [fetchIndexesFinish_nil _ hsi, hsi] at hidx
    simp at hidx
  · by_cases hpn : p.name = "PRIMARY"
    · rw [fetchIndexesFinish_primary _ p r hsi hpn] at hidx hfound ⊢
      simp only at hidx hfound ⊢
      obtain ⟨hpk2, hrest⟩ := (List.cons.injEq _ _ _ _).mp hidx
      have hpkcols : pk.columns = p.columns := by rw [← hpk2]
      have hpkdata : pk.dataColumns =
          p.dataColumns ++ (fetchIndexesScan t0 rows).columns.map (fun c => c.name) := by
        rw [← hpk2]
      have hfc : Table.findColumn
          { fetchIndexesScan t0 rows with
            indexes := { p with dataColumns := p.dataColumns ++ (fetchIndexesScan t0 rows).columns.map (fun c => c.name) } ::
              r.map (secondaryCover p.columns),
            pkColumns := some (p.columns.map (fetchIndexesScan t0 rows).findColumn) } =
          Table.findColumn (fetchIndexesScan t0 rows) :=
        findColumn_congr _ _ rfl
      refine ⟨?_, ?_, ?_⟩
      · intro col hcol
        rw [hpkdata]
        exact List.mem_append_right _ (List.mem_map.mpr ⟨col, hcol, rfl⟩)
      · rw [hpkcols, hfc]
      · intro c hc
        obtain ⟨col, hmem, hname⟩ := hfound c hc
        rw [hfc]
        obtain ⟨k, hk1, hk2⟩ :=
          colIdxAux_found c (fetchIndexesScan t0 rows).columns 0 ⟨col, hmem, hname⟩
        exact ⟨k, by simpa [Table.findColumn] using hk1, hk2⟩
    · rw [fetchIndexesFinish_nonprimary _ p r hsi hpn, hsi] at hidx
      have : p = pk := ((List.cons.injEq _ _ _ _).mp hidx).1
      exact absurd (this ▸ hpk) hpn

/-- C4 witness: on the concrete table of the C2 witness, the primary's
dataColumns are [a, b] (all columns) and pkColumns = [0], the position of
column a. -/
theorem fetchIndexes_primary_covering_witness :
    (∀ col ∈ (fetchIndexes
        { name := "t",
          columns := [{ name := "a", category := ColCategory.cat_number },
                      { name := "b", category := ColCategory.cat_varbinary }],
          indexes := [], pkColumns := none, cacheType := CacheKind.cache_none }
        [{ indexName := "PRIMARY", columnName := "a", cardinality := 10 },
         { indexName := "idx", columnName := "b", cardinality := 5 }]).columns,
      col.name ∈ ({ name := "PRIMARY", columns := ["a"], cardinality := [10],
                    dataColumns := ["a", "b"] } : Index).dataColumns) ∧
    (fetchIndexes
        { name := "t",
          columns := [{ name := "a", category := ColCategory.cat_number },
                      { name := "b", category := ColCategory.cat_varbinary }],
          indexes := [], pkColumns := none, cacheType := CacheKind.cache_none }
        [{ indexName := "PRIMARY", columnName := "a", cardinality := 10 },
         { indexName := "idx", columnName := "b", cardinality := 5 }]).pkColumns =
      some (({ name := "PRIMARY", columns := ["a"], cardinality := [10],
               dataColumns := ["a", "b"] } : Index).columns.map
        (fetchIndexes
          { name := "t",
            columns := [{ name := "a", category := ColCategory.cat_number },
                        { name := "b", category := ColCategory.cat_varbinary }],
            indexes := [], pkColumns := none, cacheType := CacheKind.cache_none }
          [{ indexName := "PRIMARY", columnName := "a", cardinality := 10 },
           { indexName := "idx", columnName := "b", cardinality := 5 }]).findColumn) ∧
    (∀ c ∈ ({ name := "PRIMARY", columns := ["a"], cardinality := [10],
              dataColumns := ["a", "b"] } : Index).columns,
      ∃ k : Nat, (fetchIndexes
          { name := "t",
            columns := [{ name := "a", category := ColCategory.cat_number },
                        { name := "b", category := ColCategory.cat_varbinary }],
            indexes := [], pkColumns := none, cacheType := CacheKind.cache_none }
          [{ indexName := "PRIMARY", columnName := "a", cardinality := 10 },
           { indexName := "idx", columnName := "b", cardinality := 5 }]).findColumn c = (k : Int) ∧
        ((fetchIndexes
            { name := "t",
              columns := [{ name := "a", category := ColCategory.cat_number },
                          { name := "b", category := ColCategory.cat_varbinary }],
              indexes := [], pkColumns := none, cacheType := CacheKind.cache_none }
            [{ indexName := "PRIMARY", columnName := "a", cardinality := 10 },
             { indexName := "idx", columnName := "b", cardinality := 5 }]).columns.get? k).map
          (fun col => col.name) = some c) :=
  fetchIndexes_primary_covering
    { name := "t",
      columns := [{ name := "a", category := ColCategory.cat_number },
                  { name := "b", category := ColCategory.cat_varbinary }],
      indexes := [], pkColumns := none, cacheType := CacheKind.cache_none }
    [{ indexName := "PRIMARY", columnName := "a", cardinality := 10 },
     { indexName := "idx", columnName := "b", cardinality := 5 }]
    { name := "PRIMARY", columns := ["a"], cardinality := [10], dataColumns := ["a", "b"] }
    [{ name := "idx", columns := ["b"], cardinality := [5], dataColumns := ["b", "a"] }]
    rfl rfl
    (by
      intro c hc
      have hca : c = "a" := by simpa using hc
      subst hca
      exact ⟨{ name := "a", category := ColCategory.cat_number }, by decide, rfl⟩)

theorem setPKColnums_ok (t : Table) (colnames : List String)
    (h : ∀ c ∈ colnames, t.findColumn c ≠ -1) :
    setPKColnums t colnames = Except.ok (colnames.map t.findColumn) := by
  induction colnames with
  | nil => rfl
  | cons c cs ih =>
    have hc : t.findColumn c ≠ -1 := h c (by simp)
    rw [setPKColnums, if_neg hc, ih (fun a ha => h a (List.mem_cons_of_mem _ ha))]
    rfl

theorem setPKColnums_err (t : Table) (colnames : List String)
    (h : ∃ c ∈ colnames, t.findColumn c = -1) :
    ∃ c ∈ colnames, t.findColumn c = -1 ∧
      setPKColnums t colnames = Except.error ("column " ++ c ++ " not found") := by
  induction colnames with
  | nil => simp at h
  | cons c cs ih =>
    by_cases hc : t.findColumn c = -1
    · exact ⟨c, by simp, hc, by rw [setPKColnums, if_pos hc]⟩
    · obtain ⟨a, ha, hfa⟩ := h
      rcases List.mem_cons.mp ha with rfl | ha
      · exact absurd hfa hc
      · obtain ⟨b, hb, hfb, heq⟩ := ih ⟨a, ha, hfa⟩
        refine ⟨b, List.mem_cons_of_mem _ hb, hfb, ?_⟩
        rw [setPKColnums, if_neg hc, heq]

/-- C3: `SetPK` builds a synthetic PRIMARY index (whose `dataColumns`
cover every table column — the covering invariant), puts it at position 0
replacing an existing PRIMARY and otherwise shifting the other indexes
down one, sets `pkColumns` to the resolved positions; it fails with a
`column not found` error as soon as some name is not a column. -/
theorem SetPK_spec (t : Table) (colnames : List String) :
    ((∀ c ∈ colnames, t.findColumn c ≠ -1) →
      SetPK t colnames = Except.ok { t with
        indexes := { name := "PRIMARY", columns := colnames,
                     cardinality := colnames.map (fun _ => 1),
                     dataColumns := t.columns.map (fun c => c.name) } ::
          (match t.indexes with
           | [] => []
           | first :: rest => if first.name ≠ "PRIMARY" then first :: rest else rest),
        pkColumns := some (colnames.map t.findColumn) }) ∧
    ((∃ c ∈ colnames, t.findColumn c = -1) →
      ∃ c ∈ colnames, t.findColumn c = -1 ∧
        SetPK t colnames = Except.error ("column " ++ c ++ " not found")) := by
  constructor
  · intro h
    rw [SetPK, setPKColnums_ok t colnames h]
    rcases t.indexes with _ | ⟨first, rest⟩
    · rfl
    · by_cases hf : first.name = "PRIMARY"
      · simp [hf]
      · simp [hf]
  · intro h
    obtain ⟨c, hc, hfc, heq⟩ := setPKColnums_err t colnames h
    refine ⟨c, hc, hfc, ?_⟩
    rw [SetPK, heq]

/-- C3 witness: on a table with columns a, b and an existing PRIMARY(a),
`SetPK ["b"]` replaces the primary (covering columns [a, b], positions
[1]); `SetPK ["z"]` fails with `column z not found`. -/
theorem SetPK_spec_witness :
    ((∀ c ∈ ["b"],
        ({ name := "t",
           columns := [{ name := "a", category := ColCategory.cat_number },
                       { name := "b", category := ColCategory.cat_varbinary }],
           indexes := [{ name := "PRIMARY", columns := ["a"], cardinality := [10], dataColumns := ["a", "b"] }],
           pkColumns := some [0], cacheType := CacheKind.cache_none } : Table).findColumn c ≠ -1) ∧
      SetPK
        { name := "t",
          columns := [{ name := "a", category := ColCategory.cat_number },
                      { name := "b", category := ColCategory.cat_varbinary }],
          indexes := [{ name := "PRIMARY", columns := ["a"], cardinality := [10], dataColumns := ["a", "b"] }],
          pkColumns := some [0], cacheType := CacheKind.cache_none } ["b"] =
        Except.ok
          { name := "t",
            columns := [{ name := "a", category := ColCategory.cat_number },
                        { name := "b", category := ColCategory.cat_varbinary }],
            indexes := [{ name := "PRIMARY", columns := ["b"], cardinality := [1], dataColumns := ["a", "b"] }],
            pkColumns := some [1], cacheType := CacheKind.cache_none }) ∧
    ((∃ c ∈ ["z"],
        ({ name := "t",
           columns := [{ name := "a", category := ColCategory.cat_number },
                       { name := "b", category := ColCategory.cat_varbinary }],
           indexes := [{ name := "PRIMARY", columns := ["a"], cardinality := [10], dataColumns := ["a", "b"] }],
           pkColumns := some [0], cacheType := CacheKind.cache_none } : Table).findColumn c = -1) ∧
      ∃ c ∈ ["z"],
        ({ name := "t",
           columns := [{ name := "a", category := ColCategory.cat_number },
                       { name := "b", category := ColCategory.cat_varbinary }],
           indexes := [{ name := "PRIMARY", columns := ["a"], cardinality := [10], dataColumns := ["a", "b"] }],
           pkColumns := some [0], cacheType := CacheKind.cache_none } : Table).findColumn c = -1 ∧
        SetPK
          { name := "t",
            columns := [{ name := "a", category := ColCategory.cat_number },
                        { name := "b", category := ColCategory.cat_varbinary }],
            indexes := [{ name := "PRIMARY", columns := ["a"], cardinality := [10], dataColumns := ["a", "b"] }],
            pkColumns := some [0], cacheType := CacheKind.cache_none } ["z"] =
          Except.error ("column " ++ c ++ " not found")) :=
  ⟨⟨by decide,
    (SetPK_spec
      { name := "t",
        columns := [{ name := "a", category := ColCategory.cat_number },
                    { name := "b", category := ColCategory.cat_varbinary }],
        indexes := [{ name := "PRIMARY", columns := ["a"], cardinality := [10], dataColumns := ["a", "b"] }],
        pkColumns := some [0], cacheType := CacheKind.cache_none } ["b"]).1 (by decide)⟩,
   ⟨by decide,
    (SetPK_spec
      { name := "t",
        columns := [{ name := "a", category := ColCategory.cat_number },
                    { name := "b", category := ColCategory.cat_varbinary }],
        indexes := [{ name := "PRIMARY", columns := ["a"], cardinality := [10], dataColumns := ["a", "b"] }],
        pkColumns := some [0], cacheType := CacheKind.cache_none } ["z"]).2 (by decide)⟩⟩

theorem initRowCache_cases (ti : TableInfo) (tableType comment : String) (poolClosed : Bool)
    (h2 : ti.table.pkColumns ≠ some [])
    (h3 : ∀ l, ti.table.pkColumns = some l → ∀ i ∈ l, (colAt ti.table i).isSome = true) :
    (initRowCache ti tableType comment poolClosed = ti ∧
      ¬ cacheEligibleSpec ti tableType comment poolClosed) ∨
    (initRowCache ti tableType comment poolClosed =
        { table := { ti.table with cacheType := CacheKind.cache_rw }, cache := some () } ∧
      cacheEligibleSpec ti tableType comment poolClosed) := by
  cases hp : poolClosed with
  | true =>
    left
    refine ⟨by simp [initRowCache], ?_⟩
    rintro ⟨hfalse, -⟩
    simp at hfalse
  | false =>
    cases hc : strContains comment "vtocc_nocache" with
    | true =>
      left
      refine ⟨by simp [initRowCache, hc], ?_⟩
      rintro ⟨-, hfalse, -⟩
      rw [hc] at hfalse
      simp at hfalse
    | false =>
      by_cases hv : tableType = "VIEW"
      · left
        refine ⟨by simp [initRowCache, hc, hv], ?_⟩
        rintro ⟨-, -, hne, -⟩
        exact hne hv
      · cases hpk : ti.table.pkColumns with
        | none =>
          left
          refine ⟨by simp [initRowCache, hc, hv, hpk], ?_⟩
          rintro ⟨-, -, -, l, hl, -⟩
          rw [hpk] at hl
          exact Option.noConfusion hl
        | some pks =>
          by_cases ha : (pks.any fun c => pkColIsOther ti.table c) = true
          · left
            refine ⟨by simp [initRowCache, hc, hv, hpk, ha], ?_⟩
            rintro ⟨-, -, -, l, hl, -, hall⟩
            rw [hpk] at hl
            obtain rfl : pks = l := Option.some_inj.mp hl
            obtain ⟨i, hi, hio⟩ := List.any_eq_true.mp ha
            unfold pkColIsOther at hio
            obtain ⟨c, hceq, hcat⟩ := hall i hi
            rw [hceq] at hio
            exact hcat (by simpa using hio)
          · right
            constructor
            · simp [initRowCache, hc, hv, hpk, ha]
            · refine ⟨rfl, hc, hv, pks, hpk, ?_, ?_⟩
              · intro h
                exact h2 (by rw [hpk, h])
              · intro i hi
                have hsome := h3 pks hpk i hi
                obtain ⟨c, hceq⟩ := Option.isSome_iff_exists.mp hsome
                refine ⟨c, hceq, ?_⟩
                intro hcat
                have hfalse : pkColIsOther ti.table i = false := by
                  rcases Bool.eq_false_or_eq_true (pkColIsOther ti.table i) with h | h
                  · exact absurd (List.any_eq_true.mpr ⟨i, hi, h⟩) ha
                  · exact h
                unfold pkColIsOther at hfalse
                rw [hceq] at hfalse
                simp [hcat] at hfalse

/-- C1: a table processed by `initRowCache` (fresh from schema load:
cache type still none, no cache handle, and `pkColumns` either nil or a
non-empty list of in-range positions) becomes read-write cached with a
`RowCache` handle attached if and only if the cache pool is open, the
comment does not contain `vtocc_nocache`, the table is not a VIEW,
`PKColumns` is non-empty and no PK column has category other; if any
predicate fails, the cache type stays none and the cache handle nil. -/
theorem initRowCache_cacheability (ti : TableInfo) (tableType comment : String) (poolClosed : Bool)
    (h0 : ti.table.cacheType = CacheKind.cache_none) (h1 : ti.cache = none)
    (h2 : ti.table.pkColumns ≠ some [])
    (h3 : ∀ l, ti.table.pkColumns = some l → ∀ i ∈ l, (colAt ti.table i).isSome = true) :
    (((initRowCache ti tableType comment poolClosed).table.cacheType = CacheKind.cache_rw ∧
        (initRowCache ti tableType comment poolClosed).cache.isSome = true) ↔
      cacheEligibleSpec ti tableType comment poolClosed) ∧
    (¬ cacheEligibleSpec ti tableType comment poolClosed →
      (initRowCache ti tableType comment poolClosed).table.cacheType = CacheKind.cache_none ∧
      (initRowCache ti tableType comment poolClosed).cache = none) := by
  rcases initRowCache_cases ti tableType comment poolClosed h2 h3 with ⟨he, hn⟩ | ⟨he, hs⟩
  · rw [he]
    refine ⟨⟨?_, ?_⟩, fun _ => ⟨h0, h1⟩⟩
    · rintro ⟨hcw, -⟩
      exact absurd (h0.symm.trans hcw) (by simp)
    · intro hsp
      exact absurd hsp hn
  · rw [he]
    exact ⟨⟨fun _ => hs, fun _ => ⟨rfl, rfl⟩⟩, fun hn => absurd hs hn⟩

/-- C1 witness: a one-column table with a numeric primary key, open pool,
empty comment, base-table type: eligible, and `initRowCache` caches it. -/
theorem initRowCache_cacheability_witness :
    (((initRowCache
        { table := { name := "t",
                     columns := [{ name := "id", category := ColCategory.cat_number }],
                     indexes := [{ name := "PRIMARY", columns := ["id"], cardinality := [1], dataColumns := ["id"] }],
                     pkColumns := some [0], cacheType := CacheKind.cache_none },
          cache := none } "BASE TABLE" "" false).table.cacheType = CacheKind.cache_rw ∧
      (initRowCache
        { table := { name := "t",
                     columns := [{ name := "id", category := ColCategory.cat_number }],
                     indexes := [{ name := "PRIMARY", columns := ["id"], cardinality := [1], dataColumns := ["id"] }],
                     pkColumns := some [0], cacheType := CacheKind.cache_none },
          cache := none } "BASE TABLE" "" false).cache.isSome = true) ↔
      cacheEligibleSpec
        { table := { name := "t",
                     columns := [{ name := "id", category := ColCategory.cat_number }],
                     indexes := [{ name := "PRIMARY", columns := ["id"], cardinality := [1], dataColumns := ["id"] }],
                     pkColumns := some [0], cacheType := CacheKind.cache_none },
          cache := none } "BASE TABLE" "" false) ∧
    (¬ cacheEligibleSpec
        { table := { name := "t",
                     columns := [{ name := "id", category := ColCategory.cat_number }],
                     indexes := [{ name := "PRIMARY", columns := ["id"], cardinality := [1], dataColumns := ["id"] }],
                     pkColumns := some [0], cacheType := CacheKind.cache_none },
          cache := none } "BASE TABLE" "" false →
      (initRowCache
        { table := { name := "t",
                     columns := [{ name := "id", category := ColCategory.cat_number }],
                     indexes := [{ name := "PRIMARY", columns := ["id"], cardinality := [1], dataColumns := ["id"] }],
                     pkColumns := some [0], cacheType := CacheKind.cache_none },
          cache := none } "BASE TABLE" "" false).table.cacheType = CacheKind.cache_none ∧
      (initRowCache
        { table := { name := "t",
                     columns := [{ name := "id", category := ColCategory.cat_number }],
                     indexes := [{ name := "PRIMARY", columns := ["id"], cardinality := [1], dataColumns := ["id"] }],
                     pkColumns := some [0], cacheType := CacheKind.cache_none },
          cache := none } "BASE TABLE" "" false).cache = none) :=
  initRowCache_cacheability
    { table := { name := "t",
                 columns := [{ name := "id", category := ColCategory.cat_number }],
                 indexes := [{ name := "PRIMARY", columns := ["id"], cardinality := [1], dataColumns := ["id"] }],
                 pkColumns := some [0], cacheType := CacheKind.cache_none },
      cache := none } "BASE TABLE" "" false rfl rfl (by decide)
    (by
      intro l hl i hi
      obtain rfl : [(0 : Int)] = l := Option.some_inj.mp hl
      have hi0 : i = 0 := by simpa using hi
      subst hi0
      decide)

theorem newCachePool_ok (binary socket : String) (tcpPort connections queryTimeoutNs : Int)
    (hb : binary ≠ "") (hcond : ¬(0 < connections ∧ connections ≤ 50)) :
    newCachePool binary socket tcpPort connections queryTimeoutNs =
      Except.ok { capacity := if 0 < connections then connections - 50 else 1024 - 50,
                  port := if tcpPort > 0 then ":" ++ toString tcpPort
                          else if socket ≠ "" then socket else "11211",
                  deleteExpiry := if goUint64 (Int.tdiv queryTimeoutNs 1000000000) ≠ 0
                    then (2 * goUint64 (Int.tdiv queryTimeoutNs 1000000000) + 15) % (2 ^ 64)
                    else 0 } := by
  unfold newCachePool
  rw [if_neg (by simpa using hb), if_neg hcond]

/-- C6: with a configured binary, the pool capacity is connections − 50
when connections > 50, initialisation is fatal (an error here) when
0 < connections ≤ 50, and capacity defaults to 1024 − 50 when connections
is unspecified (zero). -/
theorem newCachePool_capacity (binary socket : String) (tcpPort connections queryTimeoutNs : Int)
    (hb : binary ≠ "") :
    (50 < connections →
      ∃ cp, newCachePool binary socket tcpPort connections queryTimeoutNs = Except.ok cp ∧
        cp.capacity = connections - 50) ∧
    (0 < connections → connections ≤ 50 →
      newCachePool binary socket tcpPort connections queryTimeoutNs =
        Except.error ("insufficient capacity: " ++ toString connections)) ∧
    (connections = 0 →
      ∃ cp, newCachePool binary socket tcpPort connections queryTimeoutNs = Except.ok cp ∧
        cp.capacity = 1024 - 50) := by
  refine ⟨?_, ?_, ?_⟩
  · intro h50
    rw [newCachePool_ok binary socket tcpPort connections queryTimeoutNs hb (by omega)]
    exact ⟨_, rfl, by rw [if_pos (by omega)]⟩
  · intro h0 h50
    unfold newCachePool
    rw [if_neg (by simpa using hb), if_pos ⟨h0, h50⟩]
  · intro h0
    rw [newCachePool_ok binary socket tcpPort connections queryTimeoutNs hb (by omega)]
    exact ⟨_, rfl, by rw [if_neg (by omega)]⟩

/-- C6 witness: capacity 50 for 100 connections, fatal for 30, default
974 when connections is zero. -/
theorem newCachePool_capacity_witness :
    (∃ cp, newCachePool "memcached" "" 0 100 0 = Except.ok cp ∧ cp.capacity = 100 - 50) ∧
    newCachePool "memcached" "" 0 30 0 =
      Except.error ("insufficient capacity: " ++ toString (30 : Int)) ∧
    (∃ cp, newCachePool "memcached" "" 0 0 0 = Except.ok cp ∧ cp.capacity = 1024 - 50) :=
  ⟨(newCachePool_capacity "memcached" "" 0 100 0 (by decide)).1 (by decide),
   (newCachePool_capacity "memcached" "" 0 30 0 (by decide)).2.1 (by decide) (by decide),
   (newCachePool_capacity "memcached" "" 0 0 0 (by decide)).2.2 rfl⟩

/-- C7 counterexample: the claim says DeleteExpiry = 2 × wholeSeconds + 15
for every (configured) timeout and zero only when no timeout is
configured; at the configured timeout 500 ms (nonzero) the code leaves
DeleteExpiry = 0 while the claimed formula gives 15. -/
theorem newCachePool_deleteExpiry_subsecond :
    newCachePool "memcached" "" 0 0 500000000 =
      Except.ok { capacity := 974, port := "11211", deleteExpiry := 0 } ∧
    (500000000 : Int) ≠ 0 ∧
    2 * goUint64 (Int.tdiv 500000000 1000000000) + 15 = 15 ∧
    (0 : Nat) ≠ 15 :=
  ⟨rfl, by decide, by decide, by decide⟩

/-- C7 amended: DeleteExpiry is (2·s + 15) mod 2^64 where s is the query
timeout truncated to whole seconds (cast to uint64), whenever s ≠ 0; it
stays zero whenever s = 0 — in particular for any configured timeout
shorter than one second, not only when no timeout is configured. -/
theorem newCachePool_deleteExpiry (binary socket : String) (tcpPort connections queryTimeoutNs : Int)
    (hb : binary ≠ "") (hcond : ¬(0 < connections ∧ connections ≤ 50)) :
    ∃ cp, newCachePool binary socket tcpPort connections queryTimeoutNs = Except.ok cp ∧
      cp.deleteExpiry =
        (if goUint64 (Int.tdiv queryTimeoutNs 1000000000) = 0 then 0
         else (2 * goUint64 (Int.tdiv queryTimeoutNs 1000000000) + 15) % (2 ^ 64)) := by
  rw [newCachePool_ok binary socket tcpPort connections queryTimeoutNs hb hcond]
  refine ⟨_, rfl, ?_⟩
  by_cases h : goUint64 (Int.tdiv queryTimeoutNs 1000000000) = 0
  · simp [h]
  · simp [h]

/-- C7 witness: a 30 s timeout yields DeleteExpiry = 75 = 2·30 + 15. -/
theorem newCachePool_deleteExpiry_witness :
    ∃ cp, newCachePool "memcached" "" 0 0 30000000000 = Except.ok cp ∧
      cp.deleteExpiry =
        (if goUint64 (Int.tdiv 30000000000 1000000000) = 0 then 0
         else (2 * goUint64 (Int.tdiv 30000000000 1000000000) + 15) % (2 ^ 64)) :=
  newCachePool_deleteExpiry "memcached" "" 0 0 30000000000 (by decide) (by decide)

/-- C5: `GenerateFieldQuery` formats through `FormatImpossible` and is
null exactly when the rewritten form still has bind variables; under
`FormatImpossible` every select prints its exprs and FROM with the WHERE
replaced by `1 != 1` (WHERE and LIMIT are dropped), and left/right joins
print `on 1 != 1` in place of their ON clause. -/
theorem generateFieldQuery_impossible :
    (∀ s : SelectStmt,
      generateFieldQuery s =
        (if (fmtImpSelectStmt s).2 ≠ 0 then none else some (fmtImpSelectStmt s).1) ∧
      (generateFieldQuery s = none ↔ (fmtImpSelectStmt s).2 ≠ 0)) ∧
    (∀ es f w lim w2 lim2,
      fmtImpSelectStmt (SelectStmt.select es f w lim) =
        fmtImpSelectStmt (SelectStmt.select es f w2 lim2)) ∧
    (∀ es f w lim,
      (fmtImpSelectStmt (SelectStmt.select es f w lim)).1 =
        "select " ++ (fmtSelectExprs es).1 ++ " from " ++ (fmtImpTableExprs f).1 ++ " where 1 != 1") ∧
    (∀ l r o, fmtImpTableExpr (TableExpr.join l AST_LEFT_JOIN r o) =
      ((fmtImpTableExpr l).1 ++ " " ++ AST_LEFT_JOIN ++ " " ++ (fmtImpTableExpr r).1 ++ " on 1 != 1",
        (fmtImpTableExpr l).2 + (fmtImpTableExpr r).2)) ∧
    (∀ l r o, fmtImpTableExpr (TableExpr.join l AST_RIGHT_JOIN r o) =
      ((fmtImpTableExpr l).1 ++ " " ++ AST_RIGHT_JOIN ++ " " ++ (fmtImpTableExpr r).1 ++ " on 1 != 1",
        (fmtImpTableExpr l).2 + (fmtImpTableExpr r).2)) := by
  refine ⟨?_, ?_, ?_, ?_, ?_⟩
  · intro s
    refine ⟨rfl, ?_⟩
    unfold generateFieldQuery
    by_cases h : (fmtImpSelectStmt s).2 ≠ 0
    · simp [h]
    · simp [h]
  · intro es f w lim w2 lim2
    rfl
  · intro es f w lim
    rfl
  · intro l r o
    rw [fmtImpTableExpr, if_pos (by decide)]
  · intro l r o
    rw [fmtImpTableExpr, if_pos (by decide)]

/-- C8: `analyzeSQL` sends every UNION to a pass-select plan with reason
select, FieldQuery and FullQuery from the generators and nothing else
set, regardless of the per-kind analyzers; an entirely unrecognised
statement kind yields the invalid SQL error. -/
theorem analyzeSQL_union_pass_select :
    (∀ (hSelect : SelectStmt → Except String ExecPlan)
       (hInsert hUpdate hDelete : Except String ExecPlan) (hSet hDDL : ExecPlan)
       (ut : String) (l r : SelectStmt),
      analyzeSQL hSelect hInsert hUpdate hDelete hSet hDDL
          (Statement.selS (SelectStmt.union ut l r)) =
        Except.ok { planId := PlanType.PLAN_PASS_SELECT,
                    reason := ReasonType.REASON_SELECT,
                    fieldQuery := generateFieldQuery (SelectStmt.union ut l r),
                    fullQuery := some (generateFullQuery (SelectStmt.union ut l r)) }) ∧
    (∀ (hSelect : SelectStmt → Except String ExecPlan)
       (hInsert hUpdate hDelete : Except String ExecPlan) (hSet hDDL : ExecPlan),
      analyzeSQL hSelect hInsert hUpdate hDelete hSet hDDL Statement.unrecognized =
        Except.error "invalid SQL") :=
  ⟨fun _ _ _ _ _ _ _ _ _ => rfl, fun _ _ _ _ _ _ => rfl⟩

/-- C9: `GenerateSelectLimitQuery` appends `limit :#maxLimit` to a SELECT
exactly when it has no LIMIT clause; a SELECT with an explicit LIMIT is
reprinted unchanged. -/
theorem generateSelectLimitQuery_limit :
    (∀ es f w, generateSelectLimitQuery (SelectStmt.select es f w none) =
      (fmtSelectStmt (SelectStmt.select es f w none)).1 ++ " limit :#maxLimit") ∧
    (∀ es f w l, generateSelectLimitQuery (SelectStmt.select es f w (some l)) =
      (fmtSelectStmt (SelectStmt.select es f w (some l))).1) := by
  constructor
  · intro es f w
    show (fmtSelectStmt (SelectStmt.select es f w (some execLimit))).1 =
      (fmtSelectStmt (SelectStmt.select es f w none)).1 ++ " limit :#maxLimit"
    have h1 : fmtLimit (some execLimit) = (" limit :#maxLimit", 1) := rfl
    simp only [fmtSelectStmt, h1]
    rw [show (fmtLimit none).1 = "" from rfl, String.append_empty]
  · intro es f w l
    rfl

/-- C10: the generators that temporarily mutate the AST restore it before
returning: `GenerateSelectLimitQuery` leaves any statement as it found it
(the installed sentinel limit is reset to nil by the defer), and
`GenerateSelectSubquery`, when it returns, has restored the saved index
hints on `From[0]`, so the resulting AST equals the input select. -/
theorem generators_restore_ast :
    (∀ s : SelectStmt, (generateSelectLimitQueryST s).2 = s) ∧
    (∀ es f w lim ti idx q s2,
      generateSelectSubqueryST es f w lim ti idx = some (q, s2) →
      s2 = SelectStmt.select es f w lim) := by
  constructor
  · intro s
    cases s with
    | select es f w lim =>
      cases lim with
      | none => rfl
      | some l => rfl
    | union ut l r => rfl
  · intro es f w lim ti idx q s2 h
    unfold generateSelectSubqueryST at h
    split at h
    · exact Option.noConfusion h
    · split at h
      · obtain ⟨-, h2⟩ := Prod.mk.injEq _ _ _ _ ▸ Option.some_inj.mp h
        exact h2.symm
      · exact Option.noConfusion h

/-- C10 witness: on a concrete select over table t with one PRIMARY(pk)
index, the subquery generator returns and the AST handed back is exactly
the input select. -/
theorem generators_restore_ast_witness :
    generateSelectSubqueryST [ValExpr.colName "a"]
        [TableExpr.aliased (SimpleTableExpr.tableName "t") "" none] none none
        { name := "t", columns := [],
          indexes := [{ name := "PRIMARY", columns := ["pk"], cardinality := [1], dataColumns := [] }],
          pkColumns := none, cacheType := CacheKind.cache_none } "idx" =
      some ("select pk from t use index (idx) limit :#maxLimit",
        SelectStmt.select [ValExpr.colName "a"]
          [TableExpr.aliased (SimpleTableExpr.tableName "t") "" none] none none) ∧
    SelectStmt.select [ValExpr.colName "a"]
        [TableExpr.aliased (SimpleTableExpr.tableName "t") "" none] none none =
      SelectStmt.select [ValExpr.colName "a"]
        [TableExpr.aliased (SimpleTableExpr.tableName "t") "" none] none none :=
  ⟨rfl,
    generators_restore_ast.2 [ValExpr.colName "a"]
      [TableExpr.aliased (SimpleTableExpr.tableName "t") "" none] none none
      { name := "t", columns := [],
        indexes := [{ name := "PRIMARY", columns := ["pk"], cardinality := [1], dataColumns := [] }],
        pkColumns := none, cacheType := CacheKind.cache_none } "idx"
      "select pk from t use index (idx) limit :#maxLimit"
      (SelectStmt.select [ValExpr.colName "a"]
        [TableExpr.aliased (SimpleTableExpr.tableName "t") "" none] none none) rfl⟩

end CM
